import Mathlib

/-! modu: the terminal state machine of `main.go`.

A shallow embedding of `src/main.go`: the `model` struct, `Update`, `fixCursor`,
`fixViewport`, the filter-then-sort step of `load`, and the exit logic of `main`.

Conventions of the embedding.

* Go `int` is modelled by `Int`.  Every quantity that the program computes with
  (a terminal row count, a list index, a scroll offset) is many orders of magnitude
  below `2^63`, so the arithmetic is written without wraparound.
* A Go slice `[]module` is an `Option (List Module)`: `none` is the nil slice, which
  `main` and `View` tell apart from an empty one.  `len` of a nil slice is `0`.
* A Go `error` value is an `Option String`: `none` is nil.
* A run-time panic (index out of range) is the `error` branch of `Except Panic`.
* The libraries `bubbles/viewport`, `bubbles/spinner` and `sort` are not part of the
  repository; the few operations the program calls on them are modelled from the
  specification and are marked as such.
* The viewport scrolls over the text that `View` hands it (main.go:160).  `content()`
  ends every row with a newline (main.go:190-205), so a dataset of `n` records is a text
  of `n + 1` lines, the last one empty.
-/

namespace Modu

/-! ## Data model -/

/-- Go type `module` (main.go:280-286).  `Update` is a pointer; `none` is nil. -/
inductive Module where
  | mk (Path : String) (Version : String) (Update : Option Module) (Main : Bool)
      (Indirect : Bool)

namespace Module

/-- Field `Path`. -/
def Path : Module → String
  | mk p _ _ _ _ => p

/-- Field `Version`. -/
def Version : Module → String
  | mk _ v _ _ _ => v

/-- Field `Update`. -/
def Update : Module → Option Module
  | mk _ _ u _ _ => u

/-- Field `Main`. -/
def Main : Module → Bool
  | mk _ _ _ b _ => b

/-- Field `Indirect`. -/
def Indirect : Module → Bool
  | mk _ _ _ _ b => b

end Module

/-- Go `[]module`; `none` is the nil slice. -/
abbrev Slice := Option (List Module)

/-- Go `error`; `none` is nil. -/
abbrev GoError := Option String

/-- Elements of a slice (a nil slice has none). -/
def Slice.toList : Slice → List Module
  | none => []
  | some l => l

/-- Go builtin `len` on a slice. -/
def len (s : Slice) : Int := (Slice.toList s).length

/-- Run-time panics of the Go program. -/
inductive Panic where
  | indexOutOfRange (index : Int) (length : Int)
  deriving DecidableEq

/-- Go slice indexing `s[i]`: panics unless `0 <= i < len(s)`. -/
def index (s : Slice) (i : Int) : Except Panic Module :=
  if 0 ≤ i ∧ i < len s then
    match (Slice.toList s)[i.toNat]? with
    | some r => .ok r
    | none => .error (.indexOutOfRange i (len s))
  else .error (.indexOutOfRange i (len s))

/-- The fields of `viewport.Model` that the program reads and writes. -/
structure Viewport where
  Width : Int
  Height : Int
  YOffset : Int
  deriving DecidableEq

/-- Clamp `v` into `[low, high]` (the helper the viewport uses for its offset). -/
def clamp (v low high : Int) : Int := max low (min high v)

/-- Modelled from the spec: the largest offset of `viewport.Model`, which is not part of
the repository.  Section 4.2 clamps the offset at the number of lines minus the height,
and not below 0.  `total` is the dataset length; the lines are those of the text that
`content()` builds (main.go:170-209), which ends every row with a newline, so there are
`total + 1` of them. -/
def Viewport.maxYOffset (v : Viewport) (total : Int) : Int := max 0 (total + 1 - v.Height)

/-- Modelled from the spec: `viewport.Model.ScrollUp(n)`, which is not part of the
repository.  Section 4.2: "Scrolling itself is clamped so `verticalOffset` never goes
negative or past" the largest offset, here `maxYOffset`; `total` is the dataset length. -/
def Viewport.ScrollUp (v : Viewport) (total n : Int) : Viewport :=
  { v with YOffset := clamp (v.YOffset - n) 0 (v.maxYOffset total) }

/-- Modelled from the spec: `viewport.Model.ScrollDown(n)`, which is not part of the
repository; clamped like `ScrollUp`. -/
def Viewport.ScrollDown (v : Viewport) (total n : Int) : Viewport :=
  { v with YOffset := clamp (v.YOffset + n) 0 (v.maxYOffset total) }

/-- Modelled from the spec: `viewport.Model.LineUp(n)`, the older name of `ScrollUp`. -/
def Viewport.LineUp (v : Viewport) (total n : Int) : Viewport := v.ScrollUp total n

/-- Modelled from the spec: `viewport.Model.LineDown(n)`, the older name of
`ScrollDown`. -/
def Viewport.LineDown (v : Viewport) (total n : Int) : Viewport := v.ScrollDown total n

/-- The animation state of `spinner.Model`. -/
structure Spinner where
  frame : Nat
  deriving DecidableEq

/-- Go type `model` (main.go:46-58), without the rendering-only fields `color` and
`builder`. -/
structure Model where
  spinner : Spinner
  viewport : Viewport
  ready : Bool
  modules : Slice
  cursor : Int
  updating : Bool
  err : GoError

/-- Commands returned by `Update` (`tea.Cmd`); `nil` is the absent command. -/
inductive Cmd where
  | nil
  | Quit
  | updateCmd (target : Module)
  | spinnerTick

/-- Messages that `Update` switches on (main.go:79-136). `KeyMsg` carries the value of
`msg.String()`. -/
inductive Msg where
  | errMsg (err : GoError)
  | modulesMsg (modules : Slice)
  | updatedMsg (modules : Slice)
  | KeyMsg (key : String)
  | TickMsg
  | WindowSizeMsg (Width : Int) (Height : Int)

/-- Modelled from the spec: `spinner.Model.Update` on a tick, which is not part of the
repository.  Section 4.1: "`TimerTick`: advances the spinner animation frame"; the
returned command schedules the next tick. -/
def Spinner.Update (s : Spinner) : Spinner × Cmd := ({ frame := s.frame + 1 }, .spinnerTick)

/-! ## Operations -/

/-- Go `newModel` (main.go:60-69): every field the embedding keeps has its zero value. -/
def newModel : Model :=
  { spinner := { frame := 0 }
    viewport := { Width := 0, Height := 0, YOffset := 0 }
    ready := false
    modules := none
    cursor := 0
    updating := false
    err := none }

/-- Go `(*model).fixCursor` (main.go:211-217). -/
def fixCursor (m : Model) : Model :=
  if m.cursor > len m.modules - 1 then { m with cursor := 0 }
  else if m.cursor < 0 then { m with cursor := len m.modules - 1 }
  else m

/-- Go `(*model).fixViewport` (main.go:219-237).  The viewport scrolls over the rendered
dataset, whose length is passed on to the scroll operations. -/
def fixViewport (m : Model) (moveCursor : Bool) : Model :=
  let top := m.viewport.YOffset
  let bottom := m.viewport.Height + m.viewport.YOffset - 1
  if moveCursor then
    if m.cursor < top then { m with cursor := top }
    else if m.cursor > bottom then { m with cursor := bottom }
    else m
  else
    if m.cursor < top then
      { m with viewport := m.viewport.ScrollUp (len m.modules) (top - m.cursor) }
    else if m.cursor > bottom then
      { m with viewport := m.viewport.ScrollDown (len m.modules) (m.cursor - bottom) }
    else m

/-- Go `(*model).Update` (main.go:78-139).  The result is the next model and the command,
or the panic raised while handling the message. -/
def Update (m : Model) (msg : Msg) : Except Panic (Model × Cmd) :=
  match msg with
  | .errMsg e => .ok ({ m with err := e }, .Quit)
  | .modulesMsg ms => .ok ({ m with modules := ms }, .nil)
  | .updatedMsg ms => .ok ({ m with updating := false, modules := ms }, .nil)
  | .KeyMsg s =>
    if s = "ctrl+c" ∨ s = "q" then .ok (m, .Quit)
    else if s = "enter" then
      if !m.updating then
        let m1 := { m with updating := true }
        match index m1.modules m1.cursor with
        | .ok r => .ok (m1, .updateCmd r)
        | .error p => .error p
      else .ok (m, .nil)
    else if s = "down" ∨ s = "j" then
      if !m.updating then
        .ok (fixViewport (fixCursor { m with cursor := m.cursor + 1 }) false, .nil)
      else .ok (m, .nil)
    else if s = "up" ∨ s = "k" then
      if !m.updating then
        .ok (fixViewport (fixCursor { m with cursor := m.cursor - 1 }) false, .nil)
      else .ok (m, .nil)
    else if s = "pgup" ∨ s = "u" then
      if !m.updating then
        .ok (fixViewport { m with viewport := m.viewport.LineUp (len m.modules) 1 } true, .nil)
      else .ok (m, .nil)
    else if s = "pgdown" ∨ s = "d" then
      if !m.updating then
        .ok (fixViewport { m with viewport := m.viewport.LineDown (len m.modules) 1 } true,
          .nil)
      else .ok (m, .nil)
    else .ok (m, .nil)
  | .TickMsg =>
    let r := m.spinner.Update
    .ok ({ m with spinner := r.1 }, r.2)
  | .WindowSizeMsg w h =>
    if !m.ready then
      .ok ({ m with viewport := { Width := w, Height := h - 2, YOffset := 0 }, ready := true },
        .nil)
    else
      .ok (fixViewport
        { m with viewport := { m.viewport with Width := w, Height := h - 2 } } true, .nil)

/-- The event loop without rendering: feed the messages to `Update` in arrival order,
dropping the commands; a panic ends the run. -/
def run (m : Model) : List Msg → Except Panic Model
  | [] => .ok m
  | e :: es =>
    match Update m e with
    | .ok r => run r.1 es
    | .error p => .error p

/-! ## Inventory: the filter-then-sort step of `load` -/

/-- The decode loop of `load` (main.go:300-314) over the records that `dec.Decode`
yields: a record is appended when it is not the main module, has an update and is not
indirect. -/
def loadLoop (modules : List Module) : List Module → List Module
  | [] => modules
  | m :: rest =>
    if !m.Main && m.Update.isSome && !m.Indirect then loadLoop (modules ++ [m]) rest
    else loadLoop modules rest

/-- One insertion step of `sortSlice`: `x` goes in front of the first element it is less
than. -/
def sortInsert {α : Type} (less : α → α → Bool) (x : α) : List α → List α
  | [] => [x]
  | y :: ys => if less x y then x :: y :: ys else y :: sortInsert less x ys

/-- Modelled from the spec: Go `sort.Slice`, which is not part of the repository.
Section 6: the core "sorts by `path` ascending".  Go leaves the order of elements that
compare equal open; the model is insertion sort driven by the same `less`. -/
def sortSlice {α : Type} (less : α → α → Bool) : List α → List α
  | [] => []
  | x :: xs => sortInsert less x (sortSlice less xs)

/-- The comparison passed to `sort.Slice` (main.go:316-318).  Go compares strings byte by
byte; on the UTF-8 text that the JSON decoder produces this is the order of the code
points, which is the order of `String`. -/
def pathLess (a b : Module) : Bool := decide (a.Path < b.Path)

/-- Go `load` (main.go:296-320) after the external command has run and every record has
been decoded: `decoded` is the sequence of records in the order `dec.Decode` yields them. -/
def load (decoded : List Module) : List Module :=
  sortSlice pathLess (loadLoop [] decoded)

/-! ## Process exit -/

/-- What the process leaves behind: its exit code and the line `log.Fatalln` wrote. -/
structure ExitStatus where
  code : Nat
  logged : GoError
  deriving DecidableEq

/-- Go `log.Fatalln`: write the line, then `os.Exit(1)`. -/
def fatalln (line : String) : ExitStatus := { code := 1, logged := some line }

/-- Go `main` (main.go:31-43) after `p.Run()` has returned: `runErr` is the error of
`Run`, `final` the returned model (`none` when the type assertion to `*model` fails).
Falling off the end of `main` exits with code 0. -/
def main (runErr : GoError) (final : Option Model) : ExitStatus :=
  match runErr with
  | some e => fatalln e
  | none =>
    match final with
    | none => fatalln "expected model type"
    | some m =>
      match m.err with
      | some e => if m.modules.isSome then fatalln e else { code := 0, logged := none }
      | none => { code := 0, logged := none }

/-! ## Sample data -/

/-- A direct dependency `a` with an update from 1.0 to 1.5. -/
def modA : Module := .mk "a" "1.0" (some (.mk "a" "1.5" none false false)) false false

/-- A direct dependency `b` with an update from 1.0 to 2.0. -/
def modB : Module := .mk "b" "1.0" (some (.mk "b" "2.0" none false false)) false false

/-- A state with dataset `[a]`, cursor 0 and a viewport of the given height and offset. -/
def oneRow (h off : Int) : Model :=
  { newModel with
    viewport := { Width := 80, Height := h, YOffset := off }
    ready := true
    modules := some [modA] }

/-- A direct dependency `c` with an update from 0.1 to 0.2. -/
def modC : Module := .mk "c" "0.1" (some (.mk "c" "0.2" none false false)) false false

/-- A state with dataset `[a, b, c]`, a viewport of height 2 at offset 0 and the given
cursor. -/
def threeRows (c : Int) : Model :=
  { newModel with
    viewport := { Width := 80, Height := 2, YOffset := 0 }
    ready := true
    modules := some [modA, modB, modC]
    cursor := c }

/-- The state `threeRows c` while an upgrade is outstanding. -/
def upgrading (c : Int) : Model := { threeRows c with updating := true }

/-- A state with a dataset of five records, a viewport of height 3 at offset 0 and
cursor 0. -/
def fiveRows : Model :=
  { newModel with
    viewport := { Width := 80, Height := 3, YOffset := 0 }
    ready := true
    modules := some [modA, modA, modB, modB, modC] }

/-- A final model of a session whose initial inventory load failed: the error is
recorded and no dataset was ever loaded. -/
def failedLoad : Model := { newModel with err := some "exit status 1" }

/-- A final model of a session whose upgrade failed after the dataset `[a, b, c]` had been
loaded. -/
def failedUpgrade : Model := { upgrading 1 with err := some "exit status 1" }

/-- The visible band of section 3 contains the cursor:
`verticalOffset <= cursor <= verticalOffset + height - 1`. -/
def cursorInBand (m : Model) : Prop :=
  m.viewport.YOffset ≤ m.cursor ∧ m.cursor ≤ m.viewport.YOffset + m.viewport.Height - 1

/-- The cursor indexes the dataset: `0 <= cursor <= len(dataset) - 1`. -/
def cursorInRange (m : Model) : Prop :=
  0 ≤ m.cursor ∧ m.cursor ≤ len m.modules - 1

/-! ## Bookkeeping of upgrade requests -/

/-- The command is an upgrade request (`updateCmd`, main.go:262-278). -/
def Cmd.isUpgradeRequest : Cmd → Bool
  | .updateCmd _ => true
  | _ => false

/-- The command is `tea.Quit`, which stops the event loop. -/
def Cmd.isQuit : Cmd → Bool
  | .Quit => true
  | _ => false

/-- The message is `updatedMsg`, which only `updateCmd` produces. -/
def Msg.isUpdated : Msg → Bool
  | .updatedMsg _ => true
  | _ => false

/-- The message is `errMsg`, which `updateCmd` and `loadCmd` produce. -/
def Msg.isErr : Msg → Bool
  | .errMsg _ => true
  | _ => false

/-- A running session: the model together with two counters that the program does not
keep, the number of upgrade requests `Update` has emitted and the number of completions
delivered to it. -/
structure Session where
  model : Model
  requested : Nat
  completed : Nat

/-- Why a session stops: the quit command was emitted (Quitting or Failed), `Update`
panicked, or an `updatedMsg` arrived that answers no outstanding request (such a sequence
is not one in which completions answer requests). -/
inductive Halt where
  | quit
  | panic (p : Panic)
  | unrequested

/-- Deliver one message to a running session.  An `updatedMsg` is a completion and needs
an outstanding request; an `errMsg` is a completion when a request is outstanding and the
failure of the initial load otherwise.  The result counts the request that `Update`
emits, if any. -/
def Session.deliver (s : Session) (e : Msg) : Except Halt Session :=
  if e.isUpdated = true ∧ ¬ s.completed < s.requested then .error .unrequested
  else
    match Update s.model e with
    | .error p => .error (.panic p)
    | .ok r =>
      if r.2.isQuit then .error .quit
      else
        .ok
          { model := r.1
            requested := s.requested + (if r.2.isUpgradeRequest then 1 else 0)
            completed := s.completed +
              (if e.isUpdated ∨ (e.isErr ∧ s.completed < s.requested) then 1 else 0) }

/-- Deliver a sequence of messages in arrival order; the session stops at the first
halt. -/
def Session.run (s : Session) : List Msg → Except Halt Session
  | [] => .ok s
  | e :: es =>
    match s.deliver e with
    | .ok s1 => Session.run s1 es
    | .error h => .error h

/-- The session at program start: the initial model, nothing requested. -/
def Session.start : Session := { model := newModel, requested := 0, completed := 0 }

/-- The busy flag tracks the outstanding request: one more request than completions when
`updating` is true, as many when it is false. -/
def Session.busyTracks (s : Session) : Prop :=
  (s.model.updating = true → s.requested = s.completed + 1)
  ∧ (s.model.updating = false → s.requested = s.completed)

/-- Modelled from the claim's words (C18): a record is eligible when `Main = false`, its
`Update` is present and `Indirect = false`. -/
def eligible (r : Module) : Bool := r.Main == false && r.Update.isSome && r.Indirect == false

/-! ## Lemmas on the model -/

theorem fixViewport_false_cursor (m : Model) : (fixViewport m false).cursor = m.cursor := by
  unfold fixViewport
  simp only [Bool.false_eq_true, if_false]
  split_ifs <;> rfl

theorem fixViewport_false_modules (m : Model) :
    (fixViewport m false).modules = m.modules := by
  unfold fixViewport
  simp only [Bool.false_eq_true, if_false]
  split_ifs <;> rfl

theorem fixViewport_false_updating (m : Model) :
    (fixViewport m false).updating = m.updating := by
  unfold fixViewport
  simp only [Bool.false_eq_true, if_false]
  split_ifs <;> rfl

theorem fixViewport_false_height (m : Model) :
    (fixViewport m false).viewport.Height = m.viewport.Height := by
  unfold fixViewport
  simp only [Bool.false_eq_true, if_false]
  split_ifs <;> rfl

theorem fixCursor_modules (m : Model) : (fixCursor m).modules = m.modules := by
  unfold fixCursor
  split_ifs <;> rfl

theorem fixCursor_updating (m : Model) : (fixCursor m).updating = m.updating := by
  unfold fixCursor
  split_ifs <;> rfl

theorem mem_loadLoop (z : Module) (l acc : List Module) :
    z ∈ loadLoop acc l ↔
      z ∈ acc ∨ (z ∈ l ∧ z.Main = false ∧ z.Update.isSome = true ∧ z.Indirect = false) := by
  induction l generalizing acc with
  | nil => simp [loadLoop]
  | cons m rest ih =>
    unfold loadLoop
    split_ifs with hm
    · rw [ih]
      simp only [Bool.and_eq_true, Bool.not_eq_true'] at hm
      simp only [List.mem_append, List.mem_cons, List.not_mem_nil, or_false]
      constructor
      · rintro ((h | h) | h)
        · exact Or.inl h
        · subst h
          exact Or.inr ⟨Or.inl rfl, hm.1.1, hm.1.2, hm.2⟩
        · exact Or.inr ⟨Or.inr h.1, h.2⟩
      · rintro (h | ⟨h | h, h2⟩)
        · exact Or.inl (Or.inl h)
        · exact Or.inl (Or.inr h)
        · exact Or.inr ⟨h, h2⟩
    · rw [ih]
      simp only [List.mem_cons]
      constructor
      · rintro (h | h)
        · exact Or.inl h
        · exact Or.inr ⟨Or.inr h.1, h.2⟩
      · rintro (h | ⟨h | h, h2⟩)
        · exact Or.inl h
        · subst h
          exact absurd (by simp [h2.1, h2.2.1, h2.2.2]) hm
        · exact Or.inr ⟨h, h2⟩

theorem mem_sortInsert {α : Type} (less : α → α → Bool) (x z : α) (l : List α) :
    z ∈ sortInsert less x l ↔ z = x ∨ z ∈ l := by
  induction l with
  | nil => simp [sortInsert]
  | cons y ys ih =>
    unfold sortInsert
    split_ifs
    · simp
    · simp only [List.mem_cons, ih]
      tauto

theorem mem_sortSlice {α : Type} (less : α → α → Bool) (z : α) (l : List α) :
    z ∈ sortSlice less l ↔ z ∈ l := by
  induction l with
  | nil => simp [sortSlice]
  | cons x xs ih => simp [sortSlice, mem_sortInsert, ih]

theorem pairwise_sortInsert (x : Module) (l : List Module)
    (h : l.Pairwise (fun p q => p.Path ≤ q.Path)) :
    (sortInsert pathLess x l).Pairwise (fun p q => p.Path ≤ q.Path) := by
  induction l with
  | nil => simp [sortInsert]
  | cons y ys ih =>
    rw [List.pairwise_cons] at h
    unfold sortInsert
    split_ifs with hlt
    · have hxy : x.Path < y.Path := by simpa [pathLess] using hlt
      refine List.pairwise_cons.mpr ⟨?_, List.pairwise_cons.mpr h⟩
      intro z hz
      rcases List.mem_cons.mp hz with hz | hz
      · subst hz
        exact le_of_lt hxy
      · exact le_trans (le_of_lt hxy) (h.1 z hz)
    · have hyx : y.Path ≤ x.Path := by
        have : ¬ x.Path < y.Path := by simpa [pathLess] using hlt
        exact not_lt.mp this
      refine List.pairwise_cons.mpr ⟨?_, ih h.2⟩
      intro z hz
      rcases (mem_sortInsert pathLess x z ys).mp hz with hz | hz
      · subst hz
        exact hyx
      · exact h.1 z hz

theorem pairwise_sortSlice (l : List Module) :
    (sortSlice pathLess l).Pairwise (fun p q => p.Path ≤ q.Path) := by
  induction l with
  | nil => simp [sortSlice]
  | cons x xs ih => exact pairwise_sortInsert x _ ih

theorem fixCursor_cursor (m : Model) :
    (fixCursor m).cursor =
      if m.cursor > len m.modules - 1 then 0
      else if m.cursor < 0 then len m.modules - 1 else m.cursor := by
  unfold fixCursor
  split_ifs <;> rfl

/-- One navigation key from a non-busy state: `Update` returns, with no command, the state
obtained by stepping the cursor, `fixCursor` and `fixViewport(false)`. -/
theorem Update_nav (m : Model) (k : String) (hb : m.updating = false)
    (hk : k ∈ ["down", "j", "up", "k"]) :
    ∃ d : Int, (d = 1 ∧ k ∈ ["down", "j"] ∨ d = -1 ∧ k ∈ ["up", "k"])
      ∧ Update m (.KeyMsg k)
        = .ok (fixViewport (fixCursor { m with cursor := m.cursor + d }) false, .nil) := by
  simp only [List.mem_cons, List.mem_singleton, List.not_mem_nil, or_false] at hk
  rcases hk with h | h | h | h <;> subst h
  · exact ⟨1, Or.inl ⟨rfl, by simp⟩, by simp [Update, hb]⟩
  · exact ⟨1, Or.inl ⟨rfl, by simp⟩, by simp [Update, hb]⟩
  · exact ⟨-1, Or.inr ⟨rfl, by simp⟩, by simp [Update, hb, Int.sub_eq_add_neg]⟩
  · exact ⟨-1, Or.inr ⟨rfl, by simp⟩, by simp [Update, hb, Int.sub_eq_add_neg]⟩

theorem nav_step_inRange (m : Model) (k : String) (hb : m.updating = false)
    (hn : 1 ≤ len m.modules) (hr : cursorInRange m) (hk : k ∈ ["down", "j", "up", "k"]) :
    ∃ m1, Update m (.KeyMsg k) = .ok (m1, .nil) ∧ m1.modules = m.modules
      ∧ m1.updating = false ∧ cursorInRange m1 := by
  obtain ⟨d, hd, hU⟩ := Update_nav m k hb hk
  refine ⟨_, hU, ?_, ?_, ?_⟩
  · rw [fixViewport_false_modules, fixCursor_modules]
  · rw [fixViewport_false_updating, fixCursor_updating]
    exact hb
  · unfold cursorInRange at hr ⊢
    rw [fixViewport_false_cursor, fixViewport_false_modules, fixCursor_cursor,
      fixCursor_modules]
    simp only
    rcases hd with ⟨hd, _⟩ | ⟨hd, _⟩ <;> subst hd <;> split_ifs <;> omega

theorem fixViewport_true_viewport (m : Model) : (fixViewport m true).viewport = m.viewport := by
  unfold fixViewport
  simp only [if_true]
  split_ifs <;> rfl

theorem fixViewport_true_modules (m : Model) : (fixViewport m true).modules = m.modules := by
  unfold fixViewport
  simp only [if_true]
  split_ifs <;> rfl

theorem fixViewport_true_updating (m : Model) :
    (fixViewport m true).updating = m.updating := by
  unfold fixViewport
  simp only [if_true]
  split_ifs <;> rfl

theorem fixViewport_true_ready (m : Model) : (fixViewport m true).ready = m.ready := by
  unfold fixViewport
  simp only [if_true]
  split_ifs <;> rfl

theorem fixViewport_true_cursor (m : Model) :
    (fixViewport m true).cursor =
      if m.cursor < m.viewport.YOffset then m.viewport.YOffset
      else if m.cursor > m.viewport.Height + m.viewport.YOffset - 1 then
        m.viewport.Height + m.viewport.YOffset - 1
      else m.cursor := by
  unfold fixViewport
  simp only [if_true]
  split_ifs <;> rfl

/-- One scroll key from a non-busy state: `Update` returns, with no command, the state
obtained by moving the offset one line (clamped) and then `fixViewport(true)`. -/
theorem Update_scroll (m : Model) (k : String) (hb : m.updating = false)
    (hk : k ∈ ["pgup", "u", "pgdown", "d"]) :
    ∃ d : Int, (d = -1 ∧ k ∈ ["pgup", "u"] ∨ d = 1 ∧ k ∈ ["pgdown", "d"])
      ∧ Update m (.KeyMsg k)
        = .ok (fixViewport
            { m with viewport :=
                { m.viewport with
                  YOffset := clamp (m.viewport.YOffset + d) 0
                    (m.viewport.maxYOffset (len m.modules)) } } true, .nil) := by
  simp only [List.mem_cons, List.mem_singleton, List.not_mem_nil, or_false] at hk
  rcases hk with h | h | h | h <;> subst h
  · exact ⟨-1, Or.inl ⟨rfl, by simp⟩,
      by simp [Update, hb, Viewport.LineUp, Viewport.ScrollUp, Int.sub_eq_add_neg]⟩
  · exact ⟨-1, Or.inl ⟨rfl, by simp⟩,
      by simp [Update, hb, Viewport.LineUp, Viewport.ScrollUp, Int.sub_eq_add_neg]⟩
  · exact ⟨1, Or.inr ⟨rfl, by simp⟩,
      by simp [Update, hb, Viewport.LineDown, Viewport.ScrollDown]⟩
  · exact ⟨1, Or.inr ⟨rfl, by simp⟩,
      by simp [Update, hb, Viewport.LineDown, Viewport.ScrollDown]⟩

/-- A window-size message always returns, with no command: the state is ready, has the
new width and height, and keeps its offset (0 on the first resize, which builds a fresh
viewport). -/
theorem Update_resize (m : Model) (w h : Int) :
    ∃ m1, Update m (.WindowSizeMsg w h) = .ok (m1, .nil) ∧ m1.ready = true
      ∧ m1.viewport.Width = w ∧ m1.viewport.Height = h - 2
      ∧ m1.viewport.YOffset = (if m.ready = true then m.viewport.YOffset else 0) := by
  cases hr : m.ready with
  | false =>
    exact ⟨{ m with viewport := { Width := w, Height := h - 2, YOffset := 0 }, ready := true },
      by simp [Update, hr], rfl, rfl, rfl, by simp⟩
  | true =>
    refine ⟨fixViewport
      { m with viewport := { m.viewport with Width := w, Height := h - 2 } } true,
      by simp [Update, hr], ?_, ?_, ?_, ?_⟩
    · rw [fixViewport_true_ready]
      exact hr
    · rw [fixViewport_true_viewport]
    · rw [fixViewport_true_viewport]
    · rw [fixViewport_true_viewport]
      simp

/-- What a key press can do to the busy flag: quit, or emit an upgrade request while
turning the flag from false to true, or emit nothing and keep the flag. -/
theorem Update_key_updating (m m1 : Model) (s : String) (c : Cmd)
    (h : Update m (.KeyMsg s) = .ok (m1, c)) :
    c.isQuit = true
    ∨ (c.isUpgradeRequest = true ∧ m.updating = false ∧ m1.updating = true)
    ∨ (c.isQuit = false ∧ c.isUpgradeRequest = false ∧ m1.updating = m.updating) := by
  simp only [Update] at h
  split_ifs at h with h1 h2 h3 h4 h5 h6 h7 h8 h9 h10 h11
  all_goals first
    | (simp only [Except.ok.injEq, Prod.mk.injEq] at h
       obtain ⟨hm, hc⟩ := h
       subst hm hc
       first
         | exact Or.inl rfl
         | exact Or.inr (Or.inr ⟨rfl, rfl, rfl⟩)
         | exact Or.inr (Or.inr ⟨rfl, rfl, by
             rw [fixViewport_false_updating, fixCursor_updating]⟩)
         | exact Or.inr (Or.inr ⟨rfl, rfl, by rw [fixViewport_true_updating]⟩))
    | (split at h
       · simp only [Except.ok.injEq, Prod.mk.injEq] at h
         obtain ⟨hm, hc⟩ := h
         subst hm hc
         refine Or.inr (Or.inl ⟨rfl, ?_, rfl⟩)
         simpa using h3
       · simp at h)

/-- Delivering one message to a running session keeps the busy flag in step with the
counters. -/
theorem deliver_busyTracks (s s1 : Session) (e : Msg) (hs : s.busyTracks)
    (h : s.deliver e = .ok s1) : s1.busyTracks := by
  unfold Session.busyTracks at hs ⊢
  unfold Session.deliver at h
  by_cases hadm : e.isUpdated = true ∧ ¬ s.completed < s.requested
  · rw [if_pos hadm] at h
    cases h
  rw [if_neg hadm] at h
  cases hU : Update s.model e with
  | error p => simp [hU] at h
  | ok r =>
    obtain ⟨m1, c⟩ := r
    simp only [hU] at h
    by_cases hq : c.isQuit = true
    · rw [if_pos hq] at h
      cases h
    rw [if_neg hq] at h
    simp only [Except.ok.injEq] at h
    subst h
    simp only
    cases e with
    | errMsg err => simp [Update] at hU; simp [← hU.2, Cmd.isQuit] at hq
    | modulesMsg ms =>
      simp only [Update, Except.ok.injEq, Prod.mk.injEq] at hU
      obtain ⟨hm, hc⟩ := hU
      subst hm hc
      simpa [Cmd.isUpgradeRequest, Msg.isUpdated, Msg.isErr] using hs
    | updatedMsg ms =>
      simp only [Update, Except.ok.injEq, Prod.mk.injEq] at hU
      obtain ⟨hm, hc⟩ := hU
      subst hm hc
      simp only [Msg.isUpdated, true_and, not_not] at hadm
      have hbusy : s.model.updating = true := by
        cases hb : s.model.updating with
        | true => rfl
        | false =>
          have := hs.2 hb
          omega
      have := hs.1 hbusy
      simp [Cmd.isUpgradeRequest, Msg.isUpdated]
      omega
    | KeyMsg k =>
      have hk := Update_key_updating s.model m1 k c hU
      simp only [Msg.isUpdated, Msg.isErr, Bool.false_eq_true, false_and, or_self, if_false,
        Nat.add_zero]
      rcases hk with hk | ⟨hk1, hk2, hk3⟩ | ⟨_, hk2, hk3⟩
      · exact absurd hk hq
      · have := hs.2 hk2
        simp [hk1, hk3]
        omega
      · simp only [hk2, Bool.false_eq_true, if_false, Nat.add_zero, hk3]
        exact hs
    | TickMsg =>
      simp only [Update, Except.ok.injEq, Prod.mk.injEq] at hU
      obtain ⟨hm, hc⟩ := hU
      subst hm hc
      simpa [Cmd.isUpgradeRequest, Msg.isUpdated, Msg.isErr, Spinner.Update] using hs
    | WindowSizeMsg w hgt =>
      simp only [Update] at hU
      split_ifs at hU <;>
        (simp only [Except.ok.injEq, Prod.mk.injEq] at hU
         obtain ⟨hm, hc⟩ := hU
         subst hm hc
         simpa [Cmd.isUpgradeRequest, Msg.isUpdated, Msg.isErr,
           fixViewport_true_updating] using hs)

theorem run_busyTracks (s s1 : Session) (events : List Msg) (hs : s.busyTracks)
    (h : s.run events = .ok s1) : s1.busyTracks := by
  induction events generalizing s with
  | nil =>
    simp only [Session.run, Except.ok.injEq] at h
    subst h
    exact hs
  | cons e es ih =>
    simp only [Session.run] at h
    cases hd : s.deliver e with
    | error x => simp [hd] at h
    | ok s2 =>
      simp only [hd] at h
      exact ih s2 (deliver_busyTracks s s2 e hs hd) h

theorem loadLoop_eq_append_filter (l acc : List Module) :
    loadLoop acc l
      = acc ++ l.filter (fun m => !m.Main && m.Update.isSome && !m.Indirect) := by
  induction l generalizing acc with
  | nil => simp [loadLoop]
  | cons m rest ih =>
    unfold loadLoop
    split_ifs with hm
    · rw [ih]
      simp [List.filter_cons, hm]
    · rw [ih]
      simp [List.filter_cons, hm]

theorem perm_sortInsert {α : Type} (less : α → α → Bool) (x : α) (l : List α) :
    (sortInsert less x l).Perm (x :: l) := by
  induction l with
  | nil => exact List.Perm.refl _
  | cons y ys ih =>
    unfold sortInsert
    split_ifs
    · exact List.Perm.refl _
    · exact (List.Perm.cons y ih).trans (List.Perm.swap x y ys)

theorem perm_sortSlice {α : Type} (less : α → α → Bool) (l : List α) :
    (sortSlice less l).Perm l := by
  induction l with
  | nil => exact List.Perm.refl _
  | cons x xs ih => exact (perm_sortInsert less x _).trans (List.Perm.cons x ih)

/-! ## Claims -/

/-- C1 (selection-cursor invariant over the whole state machine), evaluated on the code:
from the initial state the events resize 80x24, `modulesMsg [a, b]`, key `down`, key
`enter`, `updatedMsg [a]` lead to a state whose dataset has one record and whose cursor
is 1, outside `[0, len(dataset)-1]`; one more `enter` panics with index out of range. -/
theorem run_cursor_leaves_range_after_shrink :
    (∃ m, run newModel [.WindowSizeMsg 80 24, .modulesMsg (some [modA, modB]),
        .KeyMsg "down", .KeyMsg "enter", .updatedMsg (some [modA])] = .ok m
      ∧ len m.modules = 1 ∧ m.cursor = 1 ∧ ¬ cursorInRange m)
    ∧ run newModel [.WindowSizeMsg 80 24, .modulesMsg (some [modA, modB]),
        .KeyMsg "down", .KeyMsg "enter", .updatedMsg (some [modA]), .KeyMsg "enter"]
      = .error (.indexOutOfRange 1 1) := by
  refine ⟨⟨_, rfl, ?_, ?_, ?_⟩, ?_⟩
  · decide
  · decide
  · unfold cursorInRange
    decide
  · rfl

/-- C2 (scroll-to-follow postcondition), as stated, fails on the code: with height 0
(a terminal of two rows) the band is empty, so the dataset `[a]` with cursor 0 and offset
0 is scrolled to offset 1 and the cursor is not in the band; and with height 2 over three
records a cursor of 5 stays outside the band, because the offset is clamped to 2. -/
theorem fixViewport_follow_band_fails :
    ¬ cursorInBand (fixViewport (oneRow 0 0) false)
    ∧ (fixViewport (oneRow 0 0) false).viewport.YOffset = 1
    ∧ ¬ cursorInBand (fixViewport (threeRows 5) false)
    ∧ (fixViewport (threeRows 5) false).viewport.YOffset = 2 := by
  refine ⟨?_, ?_, ?_, ?_⟩
  · unfold cursorInBand
    decide
  · decide
  · unfold cursorInBand
    decide
  · decide

/-- C2, amended: for every state whose viewport height is at least 1 and whose cursor
satisfies `0 <= cursor <= max(len(dataset), height) - 1` (in particular every cursor in
`[0, len(dataset)-1]`), whatever the starting offset, after `fixViewport(false)` the
cursor lies in the visible band: `YOffset <= cursor <= YOffset + Height - 1`. -/
theorem fixViewport_follow_band (m : Model) (hh : 1 ≤ m.viewport.Height)
    (hc0 : 0 ≤ m.cursor) (hc1 : m.cursor ≤ max (len m.modules) m.viewport.Height - 1) :
    cursorInBand (fixViewport m false) := by
  unfold cursorInBand fixViewport
  simp only [Bool.false_eq_true, if_false]
  split_ifs with h1 h2
  · simp only [Viewport.ScrollUp, Viewport.maxYOffset, clamp]
    omega
  · simp only [Viewport.ScrollDown, Viewport.maxYOffset, clamp]
    omega
  · omega

theorem fixViewport_follow_band_witness :
    1 ≤ (threeRows 2).viewport.Height
    ∧ 0 ≤ (threeRows 2).cursor
    ∧ (threeRows 2).cursor ≤ max (len (threeRows 2).modules) (threeRows 2).viewport.Height - 1
    ∧ cursorInBand (fixViewport (threeRows 2) false)
    ∧ (fixViewport (threeRows 2) false).viewport.YOffset = 1 :=
  ⟨by decide, by decide, by decide,
    fixViewport_follow_band (threeRows 2) (by decide) (by decide) (by decide), by decide⟩

/-- C3 (filtering law): for every sequence of decoded records, the dataset that `load`
produces holds no record with `Main = true`, none whose `Update` is nil and none with
`Indirect = true`, and it is in ascending order of `Path`: every adjacent pair, and indeed
every earlier/later pair, satisfies `earlier.Path <= later.Path`. -/
theorem load_filtered_and_sorted (decoded : List Module) :
    (∀ r ∈ load decoded, r.Main = false ∧ r.Update ≠ none ∧ r.Indirect = false)
    ∧ (load decoded).Chain' (fun p q => p.Path ≤ q.Path)
    ∧ (load decoded).Pairwise (fun p q => p.Path ≤ q.Path) := by
  refine ⟨?_, ?_, pairwise_sortSlice _⟩
  · intro r hr
    unfold load at hr
    rw [mem_sortSlice, mem_loadLoop] at hr
    rcases hr with hr | ⟨_, h1, h2, h3⟩
    · simp at hr
    · refine ⟨h1, ?_, h3⟩
      intro hn
      rw [hn] at h2
      simp at h2
  · exact List.Pairwise.chain' (pairwise_sortSlice _)

/-- C4 (busy guard): in every state with `updating = true`, each of the keys enter,
down/j, up/k, pgup/u, pgdown/d makes `Update` return the input state itself (every field
unchanged) together with no command; in particular no upgrade request is emitted. -/
theorem Update_busy_ignores_keys (m : Model) (k : String) (hu : m.updating = true)
    (hk : k ∈ ["enter", "down", "j", "up", "k", "pgup", "u", "pgdown", "d"]) :
    Update m (.KeyMsg k) = .ok (m, .nil) := by
  simp only [List.mem_cons, List.mem_singleton, List.not_mem_nil, or_false] at hk
  rcases hk with h | h | h | h | h | h | h | h | h <;> subst h <;> simp [Update, hu]

theorem Update_busy_ignores_keys_witness :
    (upgrading 1).updating = true
    ∧ Update (upgrading 1) (.KeyMsg "enter") = .ok (upgrading 1, .nil)
    ∧ Update (upgrading 1) (.KeyMsg "pgdown") = .ok (upgrading 1, .nil) :=
  ⟨rfl, Update_busy_ignores_keys (upgrading 1) "enter" rfl (by simp),
    Update_busy_ignores_keys (upgrading 1) "pgdown" rfl (by simp)⟩

/-- C5 (UpgradeCompleted re-clamps the cursor), evaluated on the code: in the Updating
state with dataset `[a, b, c]` and cursor 2, `updatedMsg [a, b]` installs the two-record
dataset and clears the busy flag but leaves the cursor at 2, which is neither in
`[0, len(d)-1]` nor equal to `len(d)-1 = 1`. -/
theorem updatedMsg_leaves_cursor_past_end :
    ∃ m, Update (upgrading 2) (.updatedMsg (some [modA, modB])) = .ok (m, .nil)
      ∧ m.updating = false ∧ len m.modules = 2 ∧ m.cursor = 2 ∧ ¬ cursorInRange m := by
  refine ⟨_, rfl, rfl, ?_, ?_, ?_⟩
  · decide
  · decide
  · unfold cursorInRange
    decide

/-- C6 (navigation keeps the cursor in range): from every non-busy state with a non-empty
dataset and the cursor in `[0, n-1]`, for every finite sequence of down/j/up/k keys, the
run over each initial part of the sequence returns a state with the same dataset whose
cursor is in `[0, n-1]`. -/
theorem navigation_keeps_cursor_in_range (m : Model) (ks : List String)
    (hn : 1 ≤ len m.modules) (hb : m.updating = false) (hr : cursorInRange m)
    (hks : ∀ k ∈ ks, k ∈ ["down", "j", "up", "k"]) :
    ∀ i, i ≤ ks.length →
      ∃ m1, run m ((ks.take i).map Msg.KeyMsg) = .ok m1 ∧ m1.modules = m.modules
        ∧ cursorInRange m1 := by
  induction ks generalizing m with
  | nil =>
    intro i _
    exact ⟨m, by simp [run], rfl, hr⟩
  | cons k rest ih =>
    intro i hi
    cases i with
    | zero => exact ⟨m, by simp [run], rfl, hr⟩
    | succ j =>
      obtain ⟨m1, hU, hmod, hb1, hr1⟩ :=
        nav_step_inRange m k hb hn hr (hks k (List.mem_cons_self k rest))
      have hn1 : 1 ≤ len m1.modules := by rw [hmod]; exact hn
      obtain ⟨m2, hrun, hmod2, hr2⟩ :=
        ih m1 hn1 hb1 hr1 (fun q hq => hks q (List.mem_cons_of_mem k hq)) j
          (by simpa using hi)
      refine ⟨m2, ?_, hmod2.trans hmod, hr2⟩
      simp only [List.take_succ_cons, List.map_cons, run, hU]
      exact hrun

theorem navigation_keeps_cursor_in_range_witness :
    1 ≤ len fiveRows.modules ∧ fiveRows.updating = false ∧ cursorInRange fiveRows
    ∧ ∃ m1, run fiveRows (([("up" : String), "up", "j", "down", "k"].take 2).map Msg.KeyMsg)
        = .ok m1 ∧ m1.modules = fiveRows.modules ∧ cursorInRange m1 :=
  ⟨by decide, rfl, by unfold cursorInRange; decide,
    navigation_keeps_cursor_in_range fiveRows ["up", "up", "j", "down", "k"] (by decide) rfl
      (by unfold cursorInRange; decide) (by simp) 2 (by decide)⟩

/-- C7 (wraparound is exact modular stepping): in every non-busy state with a dataset of
length `n >= 1` and cursor `c` in `[0, n-1]`, the keys down/j return a state with cursor
`(c+1) mod n` and the keys up/k a state with cursor `(c-1) mod n`, the dataset unchanged
and no command emitted. -/
theorem navigation_steps_modulo (m : Model) (hb : m.updating = false)
    (hn : 1 ≤ len m.modules) (hr : cursorInRange m) :
    (∀ k ∈ ["down", "j"], ∃ m1, Update m (.KeyMsg k) = .ok (m1, .nil)
        ∧ m1.modules = m.modules ∧ m1.cursor = (m.cursor + 1) % len m.modules)
    ∧ (∀ k ∈ ["up", "k"], ∃ m1, Update m (.KeyMsg k) = .ok (m1, .nil)
        ∧ m1.modules = m.modules ∧ m1.cursor = (m.cursor - 1) % len m.modules) := by
  unfold cursorInRange at hr
  constructor
  · intro k hk
    have hk4 : k ∈ ["down", "j", "up", "k"] := by
      simp only [List.mem_cons, List.mem_singleton, List.not_mem_nil, or_false] at hk ⊢
      tauto
    obtain ⟨d, hd, hU⟩ := Update_nav m k hb hk4
    have hd1 : d = 1 := by
      rcases hd with ⟨h, _⟩ | ⟨_, h⟩
      · exact h
      · simp only [List.mem_cons, List.mem_singleton, List.not_mem_nil, or_false] at hk h
        rcases hk with hk | hk <;> subst hk <;> simp at h
    subst hd1
    refine ⟨_, hU, ?_, ?_⟩
    · rw [fixViewport_false_modules, fixCursor_modules]
    · rw [fixViewport_false_cursor, fixCursor_cursor]
      simp only
      split_ifs with h1 h2
      · have : m.cursor + 1 = len m.modules := by omega
        rw [this, Int.emod_self]
      · omega
      · exact (Int.emod_eq_of_lt (by omega) (by omega)).symm
  · intro k hk
    have hk4 : k ∈ ["down", "j", "up", "k"] := by
      simp only [List.mem_cons, List.mem_singleton, List.not_mem_nil, or_false] at hk ⊢
      tauto
    obtain ⟨d, hd, hU⟩ := Update_nav m k hb hk4
    have hd1 : d = -1 := by
      rcases hd with ⟨_, h⟩ | ⟨h, _⟩
      · simp only [List.mem_cons, List.mem_singleton, List.not_mem_nil, or_false] at hk h
        rcases hk with hk | hk <;> subst hk <;> simp at h
      · exact h
    subst hd1
    refine ⟨_, hU, ?_, ?_⟩
    · rw [fixViewport_false_modules, fixCursor_modules]
    · rw [fixViewport_false_cursor, fixCursor_cursor]
      simp only
      split_ifs with h1 h2
      · omega
      · have h0 : m.cursor = 0 := by omega
        rw [h0, ← Int.add_emod_self]
        exact (Int.emod_eq_of_lt (by omega) (by omega)).symm
      · have : m.cursor + -1 = m.cursor - 1 := by omega
        rw [this]
        exact (Int.emod_eq_of_lt (by omega) (by omega)).symm

theorem navigation_steps_modulo_witness :
    fiveRows.updating = false ∧ 1 ≤ len fiveRows.modules ∧ cursorInRange fiveRows
    ∧ (fiveRows.cursor - 1) % len fiveRows.modules = 4
    ∧ ∃ m1, Update fiveRows (.KeyMsg "up") = .ok (m1, .nil)
        ∧ m1.modules = fiveRows.modules
        ∧ m1.cursor = (fiveRows.cursor - 1) % len fiveRows.modules :=
  ⟨rfl, by decide, by unfold cursorInRange; decide, by decide,
    (navigation_steps_modulo fiveRows rfl (by decide)
      (by unfold cursorInRange; decide)).2 "up" (by simp)⟩

/-- C8 (UpgradeRequested on an empty dataset is a no-op), evaluated on the code: after a
resize and `modulesMsg []` (no eligible record) the confirm key makes `Update` panic with
index out of range `[0]` with length 0, and so it does on the initial state, whose dataset
is nil; the busy flag had already been set when the index expression ran. -/
theorem enter_on_empty_dataset_panics :
    run newModel [.WindowSizeMsg 80 24, .modulesMsg (some []), .KeyMsg "enter"]
      = .error (.indexOutOfRange 0 0)
    ∧ Update newModel (.KeyMsg "enter") = .error (.indexOutOfRange 0 0) :=
  ⟨rfl, rfl⟩

/-- C9 (quit is disallowed while an upgrade is in flight), as stated, fails on the code:
in the Updating state over `[a, b, c]` the key `q`, and likewise `ctrl+c`, makes `Update`
return the quit command. -/
theorem quit_accepted_while_updating :
    (upgrading 1).updating = true
    ∧ Update (upgrading 1) (.KeyMsg "q") = .ok (upgrading 1, .Quit)
    ∧ Update (upgrading 1) (.KeyMsg "ctrl+c") = .ok (upgrading 1, .Quit) :=
  ⟨rfl, rfl, rfl⟩

/-- C9, amended: for every state, whether `updating` is true or false, a quit key (`q` or
`ctrl+c`) makes `Update` return the unchanged state together with the quit command. -/
theorem quit_accepted_in_every_state (m : Model) (k : String) (hk : k ∈ ["ctrl+c", "q"]) :
    Update m (.KeyMsg k) = .ok (m, .Quit) := by
  simp only [List.mem_cons, List.mem_singleton, List.not_mem_nil, or_false] at hk
  rcases hk with h | h <;> subst h <;> simp [Update]

theorem quit_accepted_in_every_state_witness :
    ("q" : String) ∈ ["ctrl+c", "q"]
    ∧ Update (threeRows 0) (.KeyMsg "q") = .ok (threeRows 0, .Quit) :=
  ⟨by simp, quit_accepted_in_every_state (threeRows 0) "q" (by simp)⟩

/-- C10 (exit outcome on error), as stated, fails on the code: for the final model of a
failed initial load (error recorded, `modules` nil) `main` logs nothing and exits 0. -/
theorem main_silent_when_load_failed :
    failedLoad.err = some "exit status 1" ∧ failedLoad.modules = none
    ∧ main none (some failedLoad) = { code := 0, logged := none } :=
  ⟨rfl, rfl, rfl⟩

/-- C10, amended: for every final model in which an error was recorded and a dataset had
been loaded (`modules` not nil), `main` logs the error and exits with code 1; when an
error was recorded and `modules` is nil, `main` logs nothing and exits 0; a final model
with no error exits 0. -/
theorem main_exit_outcome (m : Model) :
    (∀ e, m.err = some e → m.modules ≠ none →
        main none (some m) = { code := 1, logged := some e })
    ∧ (∀ e, m.err = some e → m.modules = none →
        main none (some m) = { code := 0, logged := none })
    ∧ (m.err = none → main none (some m) = { code := 0, logged := none }) := by
  refine ⟨?_, ?_, ?_⟩
  · intro e he hm
    have : m.modules.isSome = true := Option.isSome_iff_ne_none.mpr hm
    simp [main, he, this, fatalln]
  · intro e he hm
    simp [main, he, hm]
  · intro he
    simp [main, he]

theorem main_exit_outcome_witness :
    failedUpgrade.err = some "exit status 1" ∧ failedUpgrade.modules ≠ none
    ∧ main none (some failedUpgrade) = { code := 1, logged := some "exit status 1" }
    ∧ main none (some newModel) = { code := 0, logged := none } :=
  ⟨rfl, by simp [failedUpgrade, upgrading, threeRows],
    (main_exit_outcome failedUpgrade).1 "exit status 1" rfl
      (by simp [failedUpgrade, upgrading, threeRows]),
    (main_exit_outcome newModel).2.2 rfl⟩

/-- C11 (InventoryLoaded sets the cursor to 0), evaluated on the code: from the initial
state, after a resize and the key `up` the state is still Loading (dataset nil) but its
cursor is -1; delivering `modulesMsg` with the sorted dataset `[a, b]` of scenario A
installs the dataset and leaves the cursor at -1, and a following `enter` panics with
index out of range.  Without the key press the same message ends with cursor 0. -/
theorem modulesMsg_keeps_cursor_of_loading_state :
    (∃ m0, run newModel [.WindowSizeMsg 80 24, .KeyMsg "up"] = .ok m0
      ∧ m0.modules = none ∧ m0.cursor = -1)
    ∧ (∃ m, run newModel [.WindowSizeMsg 80 24, .KeyMsg "up",
          .modulesMsg (some (load [modB, modA]))] = .ok m
        ∧ m.modules = some [modA, modB] ∧ m.cursor = -1)
    ∧ run newModel [.WindowSizeMsg 80 24, .KeyMsg "up",
          .modulesMsg (some (load [modB, modA])), .KeyMsg "enter"]
        = .error (.indexOutOfRange (-1) 2)
    ∧ (∃ m, run newModel [.WindowSizeMsg 80 24, .modulesMsg (some (load [modB, modA]))]
          = .ok m ∧ m.modules = some [modA, modB] ∧ m.cursor = 0) := by
  have hl : load [modB, modA] = [modA, modB] := by
    simp [load, loadLoop, sortSlice, sortInsert, pathLess, modA, modB, Module.Main,
      Module.Update, Module.Indirect, Module.Path]
    decide
  rw [hl]
  refine ⟨⟨_, rfl, rfl, ?_⟩, ⟨_, rfl, rfl, ?_⟩, rfl, ⟨_, rfl, rfl, ?_⟩⟩
  · decide
  · decide
  · decide

/-- C12 (UpgradeRequested from Idle): in every non-busy state with cursor `c` in
`[0, len(dataset)-1]` (which makes the dataset non-empty), the key `enter` makes `Update`
return the input state with only `updating` set to true (dataset, cursor and viewport
unchanged) together with exactly one command, the upgrade request for the record
`dataset[c]`. -/
theorem enter_requests_upgrade_at_cursor (m : Model) (hb : m.updating = false)
    (hr : cursorInRange m) :
    ∃ r, (Slice.toList m.modules)[m.cursor.toNat]? = some r
      ∧ Update m (.KeyMsg "enter") = .ok ({ m with updating := true }, .updateCmd r) := by
  unfold cursorInRange at hr
  have hlt : m.cursor.toNat < (Slice.toList m.modules).length := by
    unfold len at hr
    omega
  refine ⟨(Slice.toList m.modules)[m.cursor.toNat], List.getElem?_eq_getElem hlt, ?_⟩
  have hin : 0 ≤ m.cursor ∧ m.cursor < len m.modules := ⟨hr.1, by omega⟩
  simp [Update, hb, index, hin, List.getElem?_eq_getElem hlt]

theorem enter_requests_upgrade_at_cursor_witness :
    (threeRows 1).updating = false ∧ 1 ≤ len (threeRows 1).modules
    ∧ cursorInRange (threeRows 1)
    ∧ (Slice.toList (threeRows 1).modules)[(threeRows 1).cursor.toNat]? = some modB
    ∧ ∃ r, (Slice.toList (threeRows 1).modules)[(threeRows 1).cursor.toNat]? = some r
        ∧ Update (threeRows 1) (.KeyMsg "enter")
          = .ok ({ threeRows 1 with updating := true }, .updateCmd r) :=
  ⟨rfl, by decide, by unfold cursorInRange; decide, rfl,
    enter_requests_upgrade_at_cursor (threeRows 1) rfl (by unfold cursorInRange; decide)⟩

/-- C13 (failure is terminal and does not mutate the dataset): for every state and every
`errMsg(e)`, `Update` returns the quit command and a state whose error is `e` and whose
dataset, cursor, viewport, busy flag, ready flag and spinner are those of the input. -/
theorem errMsg_records_error_and_quits (m : Model) (e : GoError) :
    Update m (.errMsg e) = .ok ({ m with err := e }, .Quit)
    ∧ ∀ m1 c, Update m (.errMsg e) = .ok (m1, c) →
        c = .Quit ∧ m1.err = e ∧ m1.modules = m.modules ∧ m1.cursor = m.cursor
        ∧ m1.viewport = m.viewport ∧ m1.updating = m.updating ∧ m1.ready = m.ready
        ∧ m1.spinner = m.spinner := by
  refine ⟨rfl, ?_⟩
  intro m1 c h
  simp only [Update, Except.ok.injEq, Prod.mk.injEq] at h
  obtain ⟨h1, h2⟩ := h
  subst h1 h2
  exact ⟨rfl, rfl, rfl, rfl, rfl, rfl, rfl, rfl⟩

/-- C15 (TimerTick frame property): for every state, `Update` on a spinner tick returns
the input state with only the spinner replaced by the spinner's own update, and the
spinner's command; dataset, cursor, viewport (offset, height, width), busy flag, ready
flag and error are unchanged. -/
theorem tick_changes_only_spinner (m : Model) :
    Update m .TickMsg
      = .ok ({ m with spinner := m.spinner.Update.1 }, m.spinner.Update.2)
    ∧ ∀ m1 c, Update m .TickMsg = .ok (m1, c) →
        m1.modules = m.modules ∧ m1.cursor = m.cursor ∧ m1.viewport = m.viewport
        ∧ m1.updating = m.updating ∧ m1.ready = m.ready ∧ m1.err = m.err := by
  refine ⟨rfl, ?_⟩
  intro m1 c h
  simp only [Update, Except.ok.injEq, Prod.mk.injEq] at h
  obtain ⟨h1, _⟩ := h
  subst h1
  exact ⟨rfl, rfl, rfl, rfl, rfl, rfl⟩

/-- C14 (resize idempotence): for every state and every `(width, height)`, handling the
window-size message twice in a row returns, like handling it once, and the viewport after
the second (offset, height and width) equals the viewport after the first. -/
theorem resize_twice_same_band (m : Model) (w h : Int) :
    ∃ m1 m2, run m [.WindowSizeMsg w h] = .ok m1
      ∧ run m [.WindowSizeMsg w h, .WindowSizeMsg w h] = .ok m2
      ∧ m2.viewport.YOffset = m1.viewport.YOffset
      ∧ m2.viewport.Height = m1.viewport.Height
      ∧ m2.viewport.Width = m1.viewport.Width := by
  obtain ⟨m1, hU1, hready, hw1, hh1, _⟩ := Update_resize m w h
  obtain ⟨m2, hU2, _, hw2, hh2, ho2⟩ := Update_resize m1 w h
  refine ⟨m1, m2, by simp [run, hU1], by simp [run, hU1, hU2], ?_, ?_, ?_⟩
  · rw [ho2, if_pos hready]
  · rw [hh2, hh1]
  · rw [hw2, hw1]

/-- C16 (clamp-to-window after scrolling), evaluated on the code: the non-busy state with
dataset `[a]`, height 1, offset 0 and cursor 0 meets every condition of the claim
(`n = 1`, `h = 1`, `max(0, n-h) = 0`).  The key `d`, and likewise `pgdown`, scrolls to
offset 1, past `max(0, n-h)`, onto the empty last line of the content, and
`fixViewport(true)` moves the cursor to 1, outside `[0, n-1]`; a following `enter` panics
with index out of range.  The state is reached from program start by a resize to three
rows and `modulesMsg [a]`. -/
theorem scroll_down_moves_cursor_past_last_record :
    ((oneRow 1 0).updating = false ∧ len (oneRow 1 0).modules = 1
      ∧ (oneRow 1 0).viewport.Height = 1 ∧ (oneRow 1 0).viewport.YOffset = 0
      ∧ cursorInRange (oneRow 1 0))
    ∧ (∃ m1, Update (oneRow 1 0) (.KeyMsg "d") = .ok (m1, .nil)
        ∧ m1.viewport.YOffset = 1 ∧ m1.cursor = 1 ∧ len m1.modules = 1
        ∧ ¬ m1.viewport.YOffset ≤ max 0 (len m1.modules - m1.viewport.Height)
        ∧ ¬ cursorInRange m1)
    ∧ (∃ m1, Update (oneRow 1 0) (.KeyMsg "pgdown") = .ok (m1, .nil)
        ∧ m1.viewport.YOffset = 1 ∧ m1.cursor = 1)
    ∧ run (oneRow 1 0) [.KeyMsg "d", .KeyMsg "enter"] = .error (.indexOutOfRange 1 1)
    ∧ (∃ m, run newModel [.WindowSizeMsg 80 3, .modulesMsg (some [modA]), .KeyMsg "d"]
          = .ok m
        ∧ m.viewport.Height = 1 ∧ m.viewport.YOffset = 1 ∧ m.cursor = 1
        ∧ len m.modules = 1) := by
  refine ⟨⟨rfl, ?_, rfl, rfl, ?_⟩, ⟨_, rfl, ?_, ?_, ?_, ?_, ?_⟩, ⟨_, rfl, ?_, ?_⟩, rfl,
    ⟨_, rfl, ?_, ?_, ?_, ?_⟩⟩
  · decide
  · unfold cursorInRange
    decide
  · decide
  · decide
  · decide
  · decide
  · unfold cursorInRange
    decide
  · decide
  · decide
  · decide
  · decide
  · decide
  · decide

/-- C19 (scroll-to-follow moves the window minimally): for every state with height
`h >= 1`, cursor in `[0, n-1]` and offset in `[0, max(0, n-h)]`, `fixViewport(false)`
leaves the cursor, the height and the dataset unchanged; it leaves the offset unchanged
when `offset <= cursor <= offset+h-1`, sets it to `cursor` when `cursor < offset`, and
sets it to `cursor-h+1` when `cursor > offset+h-1`. -/
theorem fixViewport_follow_is_minimal (m : Model) (hh : 1 ≤ m.viewport.Height)
    (hr : cursorInRange m) (ho0 : 0 ≤ m.viewport.YOffset)
    (ho1 : m.viewport.YOffset ≤ max 0 (len m.modules - m.viewport.Height)) :
    (fixViewport m false).cursor = m.cursor
    ∧ (fixViewport m false).viewport.Height = m.viewport.Height
    ∧ (fixViewport m false).modules = m.modules
    ∧ (m.viewport.YOffset ≤ m.cursor
          ∧ m.cursor ≤ m.viewport.YOffset + m.viewport.Height - 1 →
        (fixViewport m false).viewport.YOffset = m.viewport.YOffset)
    ∧ (m.cursor < m.viewport.YOffset →
        (fixViewport m false).viewport.YOffset = m.cursor)
    ∧ (m.cursor > m.viewport.YOffset + m.viewport.Height - 1 →
        (fixViewport m false).viewport.YOffset = m.cursor - m.viewport.Height + 1) := by
  unfold cursorInRange at hr
  refine ⟨fixViewport_false_cursor m, fixViewport_false_height m,
    fixViewport_false_modules m, ?_, ?_, ?_⟩
  · intro h
    unfold fixViewport
    simp only [Bool.false_eq_true, if_false]
    split_ifs <;> first | rfl | omega
  · intro h
    unfold fixViewport
    simp only [Bool.false_eq_true, if_false, h, if_true, Viewport.ScrollUp,
      Viewport.maxYOffset, clamp]
    omega
  · intro h
    unfold fixViewport
    simp only [Bool.false_eq_true, if_false]
    split_ifs with h1 h2
    · omega
    · simp only [Viewport.ScrollDown, Viewport.maxYOffset, clamp]
      omega
    · omega

theorem fixViewport_follow_is_minimal_witness :
    1 ≤ fiveRows.viewport.Height ∧ cursorInRange { fiveRows with cursor := 4 }
    ∧ (fixViewport { fiveRows with cursor := 4 } false).viewport.YOffset = 4 - 3 + 1
    ∧ (fixViewport { fiveRows with cursor := 4 } false).cursor = 4 :=
  ⟨by decide, by unfold cursorInRange; decide,
    (fixViewport_follow_is_minimal { fiveRows with cursor := 4 } (by decide)
      (by unfold cursorInRange; decide) (by decide) (by decide)).2.2.2.2.2 (by decide),
    (fixViewport_follow_is_minimal { fiveRows with cursor := 4 } (by decide)
      (by unfold cursorInRange; decide) (by decide) (by decide)).1⟩

/-- C17 (busy tracks the outstanding upgrade exactly): for every sequence of messages
delivered from program start in which every `updatedMsg` answers an outstanding request,
every state in which the session is still running (no quit command emitted, no panic) has
one more upgrade request emitted than completions delivered when `updating` is true, and
as many when `updating` is false; so at most one upgrade is outstanding. -/
theorem busy_tracks_outstanding_upgrade (events : List Msg) (s : Session)
    (h : Session.start.run events = .ok s) :
    (s.model.updating = true → s.requested = s.completed + 1)
    ∧ (s.model.updating = false → s.requested = s.completed)
    ∧ s.requested ≤ s.completed + 1 := by
  have h0 : Session.start.busyTracks := by
    unfold Session.busyTracks Session.start newModel
    simp
  have hs := run_busyTracks Session.start s events h0 h
  unfold Session.busyTracks at hs
  refine ⟨hs.1, hs.2, ?_⟩
  cases hb : s.model.updating with
  | true =>
    have := hs.1 hb
    omega
  | false =>
    have := hs.2 hb
    omega

theorem busy_tracks_outstanding_upgrade_witness :
    ∃ s, Session.start.run [.WindowSizeMsg 80 24, .modulesMsg (some [modA, modB]),
        .KeyMsg "down", .KeyMsg "enter", .KeyMsg "enter", .TickMsg] = .ok s
      ∧ s.model.updating = true ∧ s.requested = 1 ∧ s.completed = 0
      ∧ (s.model.updating = true → s.requested = s.completed + 1) :=
  ⟨_, rfl, rfl, rfl, rfl,
    (busy_tracks_outstanding_upgrade [.WindowSizeMsg 80 24, .modulesMsg (some [modA, modB]),
      .KeyMsg "down", .KeyMsg "enter", .KeyMsg "enter", .TickMsg] _ rfl).1⟩

/-- C18 (filtering loses and invents nothing): for every sequence of decoded records, the
dataset that `load` produces is a permutation of the eligible input records (`Main`
false, `Update` present, `Indirect` false) in their input multiplicity; in particular a
record is in the dataset exactly when it is an eligible record of the input. -/
theorem load_perm_eligible (decoded : List Module) :
    (load decoded).Perm (decoded.filter eligible)
    ∧ (load decoded).length = (decoded.filter eligible).length
    ∧ ∀ r, r ∈ load decoded ↔ r ∈ decoded ∧ eligible r = true := by
  have hf : (fun m : Module => !m.Main && m.Update.isSome && !m.Indirect) = eligible := by
    funext m
    unfold eligible
    cases m.Main <;> cases m.Indirect <;> simp
  have hp : (load decoded).Perm (decoded.filter eligible) := by
    unfold load
    rw [loadLoop_eq_append_filter, List.nil_append, hf]
    exact perm_sortSlice pathLess _
  refine ⟨hp, hp.length_eq, ?_⟩
  intro r
  rw [hp.mem_iff, List.mem_filter]

end Modu
